import Mathlib

/-!
Verification development for the optimal gathering point search engine
(`optimal_point.py`).  Coordinates are embedded as rationals, travel times as
natural numbers, and the routing oracle as a pair of total functions returning
`Option ℕ` (`none` models the provider's "unknown" answer).  Logging and
diagnostic output (`print` calls, `calculation_logs`, the Haversine distance
used only for a log line) carry no data flow into the results and are omitted.
-/

namespace OptimalPoint

/-- A geographic point `(latitude, longitude)` in decimal degrees. -/
abbrev Point := ℚ × ℚ

/-- Round a rational to the nearest integer, ties to even: the behaviour of
Python's builtin `round`. -/
def roundHalfEven (q : ℚ) : ℤ :=
  let f := ⌊q⌋
  let r := q - f
  if r < 1/2 then f
  else if 1/2 < r then f + 1
  else if f % 2 = 0 then f else f + 1

/-- `round(x, 6)` from the source: round to 6 decimal digits. -/
def round6 (q : ℚ) : ℚ := (roundHalfEven (q * 1000000) : ℚ) / 1000000

/-- Round both components of a point to 6 decimal digits. -/
def round6P (p : Point) : Point := (round6 p.1, round6 p.2)

/-- The routing oracle (`MapAPI`): the two route-time entry points the finder
consults.  Each returns a travel time in whole seconds or `none` for
"unknown".  Exceptions raised by a provider are caught and treated as `none`
by the source, so a total `Option`-valued function is faithful. -/
structure MapAPI where
  calculate_route : Point → Point → Option ℕ
  calculate_route_time : Point → Point → Option ℕ

/-- The lookup pattern used everywhere in `optimal_point.py`: try
`calculate_route`; on `None` fall back to `calculate_route_time`
(an `AttributeError` for a missing method is caught and keeps `None`). -/
def routeLookup (api : MapAPI) (o d : Point) : Option ℕ :=
  match api.calculate_route o d with
  | some t => some t
  | none => api.calculate_route_time o d

/-- Lines 46-47 / 75-76: `weights[:len(coords)] + [1.0] * (len(coords) - len(weights))`. -/
def padWeights (n : ℕ) (ws : List ℚ) : List ℚ :=
  ws.take n ++ List.replicate (n - ws.length) 1

/-- The shared weight-defaulting prologue: `None` becomes all ones, a
length-mismatched list is truncated/padded with ones. -/
def resolveWeights (n : ℕ) (weights : Option (List ℚ)) : List ℚ :=
  match weights with
  | none => List.replicate n 1
  | some ws => if ws.length ≠ n then padWeights n ws else ws

/-- The accumulation loop of `calculate_total_time` (lines 81-109): skip a
location whose lookup fails, otherwise add `time * weight`.  Both endpoints
are rounded to 6 decimals before the oracle call. -/
def totalTimeLoop (api : MapAPI) (rp : Point) : List (Point × ℚ) → ℚ
  | [] => 0
  | (c, w) :: rest =>
      match routeLookup api rp (round6P c) with
      | none => totalTimeLoop api rp rest
      | some t => (t : ℚ) * w + totalTimeLoop api rp rest

/-- `calculate_total_time` (lines 63-111): weighted sum of route times over
the locations whose lookup succeeds; `int(total) if total > 0 else 0`. -/
def calculate_total_time (api : MapAPI) (point : Point) (coords : List Point)
    (weights : Option (List ℚ)) : ℕ :=
  let ws := resolveWeights coords.length weights
  let total := totalTimeLoop api (round6P point) (coords.zip ws)
  if 0 < total then (⌊total⌋).toNat else 0

/-- The accumulation loop of `calculate_pure_total_time` (lines 123-148). -/
def pureTimeLoop (api : MapAPI) (rp : Point) : List Point → ℕ
  | [] => 0
  | c :: rest =>
      match routeLookup api rp (round6P c) with
      | none => pureTimeLoop api rp rest
      | some t => t + pureTimeLoop api rp rest

/-- `calculate_pure_total_time` (lines 113-150): unweighted sum of route
times over the locations whose lookup succeeds. -/
def calculate_pure_total_time (api : MapAPI) (point : Point) (coords : List Point) : ℕ :=
  let total := pureTimeLoop api (round6P point) coords
  if 0 < total then total else 0

/-- The accumulation loop of `calculate_max_time` (lines 162-188):
`if time > max_time: max_time = time`. -/
def maxTimeLoop (api : MapAPI) (rp : Point) : List Point → ℕ → ℕ
  | [], m => m
  | c :: rest, m =>
      match routeLookup api rp (round6P c) with
      | none => maxTimeLoop api rp rest m
      | some t => maxTimeLoop api rp rest (if m < t then t else m)

/-- `calculate_max_time` (lines 152-190): maximum route time over the
locations whose lookup succeeds, starting from 0. -/
def calculate_max_time (api : MapAPI) (point : Point) (coords : List Point) : ℕ :=
  let m := maxTimeLoop api (round6P point) coords 0
  if 0 < m then m else 0

/-- `calculate_centroid` (lines 36-61): per-axis weighted mean rounded to 6
decimals, falling back to the unweighted (and unrounded) arithmetic mean when
the weights sum to 0; `None` on an empty point list. -/
def calculate_centroid (coords : List Point) (weights : Option (List ℚ)) : Option Point :=
  if coords = [] then none
  else
    let ws := resolveWeights coords.length weights
    let wsumLat := ((coords.zip ws).map (fun pw => pw.1.1 * pw.2)).sum
    let wsumLng := ((coords.zip ws).map (fun pw => pw.1.2 * pw.2)).sum
    let total := ws.sum
    if total = 0 then
      some ((coords.map Prod.fst).sum / (coords.length : ℚ),
            (coords.map Prod.snd).sum / (coords.length : ℚ))
    else
      some (round6 (wsumLat / total), round6 (wsumLng / total))

/-- `self.min_radius = 0.0001` (line 13). -/
def min_radius : ℚ := 1/10000

/-- `self.cluster_threshold = 20` (line 15). -/
def cluster_threshold : ℕ := 20

/-- `self.directions = [(1, 0), (0, 1), (-1, 0), (0, -1)]` (line 14), labelled
East, North, West, South by the probing loop. -/
def directions : List (ℤ × ℤ) := [(1, 0), (0, 1), (-1, 0), (0, -1)]

/-- The mutable state of the `while radius >= self.min_radius` loop
(lines 450-493): current point, current objective value, search radius, and
the iteration counter. -/
structure LoopState where
  point : Point
  time : ℕ
  radius : ℚ
  iterations : ℕ
deriving DecidableEq, Repr

/-- Line 459: `new_point = (round(x + dx * radius, 6), round(y + dy * radius, 6))`. -/
def probeCandidate (p : Point) (r : ℚ) (d : ℤ × ℤ) : Point :=
  (round6 (p.1 + (d.1 : ℚ) * r), round6 (p.2 + (d.2 : ℚ) * r))

/-- The `for dx, dy in self.directions` loop body (lines 456-487): evaluate
the candidate in each direction in turn and `break` on the first one whose
metric is strictly below the current one. -/
def probeFirst (costF : Point → ℕ) (cur : ℕ) (p : Point) (r : ℚ) :
    List (ℤ × ℤ) → Option (Point × ℕ)
  | [] => none
  | d :: ds =>
      let np := probeCandidate p r d
      let m := costF np
      if m < cur then some (np, m) else probeFirst costF cur p r ds

/-- One iteration of the search loop: accept the first improving direction
(keeping the radius), otherwise halve the radius (keeping the point). -/
def stepState (costF : Point → ℕ) (st : LoopState) : LoopState :=
  match probeFirst costF st.time st.point st.radius directions with
  | some (np, m) => ⟨np, m, st.radius, st.iterations + 1⟩
  | none => ⟨st.point, st.time, st.radius / 2, st.iterations + 1⟩

/-- The `while radius >= self.min_radius` loop, driven by a fuel parameter;
`loopFuel_converged` below shows the fuel used by `runSearch` always brings
the loop to its exit condition, so this computes the while loop's result. -/
def loopFuel (costF : Point → ℕ) : ℕ → LoopState → LoopState
  | 0, st => st
  | n + 1, st =>
      if min_radius ≤ st.radius then loopFuel costF n (stepState costF st) else st

/-- An upper bound on the number of halvings a radius can undergo while
staying at or above `min_radius`: the radius measured in units of
`min_radius`, rounded down (0 once the radius is below the floor). -/
def radiusFuel (r : ℚ) : ℕ := ⌊r * 10000⌋₊

/-- Fuel sufficient to drive `loopFuel` to the loop's exit condition from a
given state: every iteration either strictly decreases the (natural number)
objective value or halves the radius. -/
def stateFuel (st : LoopState) : ℕ := st.time + radiusFuel st.radius

/-- The objective dispatch used identically at lines 393-399, 413-418 and
462-470: `calculate_max_time` when `algorithm_type == 'min_max_time'`,
`calculate_total_time` otherwise. -/
def evalMetric (api : MapAPI) (algorithm_type : String) (coords : List Point)
    (weights : Option (List ℚ)) (p : Point) : ℕ :=
  if algorithm_type = "min_max_time" then calculate_max_time api p coords
  else calculate_total_time api p coords weights

/-- One record of the `individual_times` report (lines 520-544). -/
structure IndivEntry where
  point_index : ℕ
  coordinates : Point
  time_seconds : Option ℕ
  weight : ℚ
deriving DecidableEq, Repr

/-- The fields of the result dictionary that carry data (lines 558-565);
`calculation_logs` and `clustering_info` are diagnostic and omitted. -/
structure FOPResult where
  optimal_point : Point
  total_time : ℕ
  pure_total_time : ℕ
  individual_times : List IndivEntry
  iteration_count : ℕ
deriving DecidableEq, Repr

/-- `weights[i]` on a possibly-`None` weights object: subscripting `None`
raises `TypeError`, an out-of-range index raises `IndexError`. -/
def pyWeightAt (weights : Option (List ℚ)) (i : ℕ) : Except String ℚ :=
  match weights with
  | none => .error "TypeError: NoneType is not subscriptable"
  | some ws =>
      match ws.get? i with
      | some w => .ok w
      | none => .error "IndexError: list index out of range"

/-- The per-location secondary pass after convergence (lines 504-545 and
745-785): one entry per original location, looked up with the UNROUNDED
coordinates, `time_seconds = none` when the oracle cannot price the pair.
An exception raised by `weights[i]` propagates (the `except` handler
re-evaluates `weights[i]` and re-raises). -/
def secondaryPass (api : MapAPI) (p : Point) (weights : Option (List ℚ)) :
    List Point → ℕ → Except String (List IndivEntry)
  | [], _ => .ok []
  | c :: cs, i =>
      let t := routeLookup api p c
      match pyWeightAt weights i with
      | .error e => .error e
      | .ok w =>
          match secondaryPass api p weights cs (i + 1) with
          | .error e => .error e
          | .ok rest => .ok (⟨i, c, t, w⟩ :: rest)

/-- ASCII lower-casing of one character, as Python's `str.lower` does for the
method-name strings compared here. -/
def lowerChar (c : Char) : Char :=
  if 65 ≤ c.toNat ∧ c.toNat ≤ 90 then Char.ofNat (c.toNat + 32) else c

/-- Python's `str.lower()` for the ASCII method names used by the source. -/
def pyLower (s : String) : String := ⟨s.data.map lowerChar⟩

/-- The distinct values of a label list in first-occurrence order: the
iteration order of a Python `defaultdict` keyed by cluster label.  Driven by
a fuel argument bounded by the list length. -/
def uniqueLabelsAux : ℕ → List ℤ → List ℤ
  | 0, _ => []
  | _ + 1, [] => []
  | n + 1, a :: l => a :: uniqueLabelsAux n (l.filter (fun b => b ≠ a))

/-- Distinct labels in first-occurrence order. -/
def uniqueLabels (l : List ℤ) : List ℤ := uniqueLabelsAux l.length l

/-- The members of `xs` whose label equals `label` (the per-label grouping of
lines 208-210 / 246-248 / 298-300 / 328-330). -/
def membersWith {α : Type} (label : ℤ) (labels : List ℤ) (xs : List α) : List α :=
  ((labels.zip xs).filter (fun q => q.1 = label)).map Prod.snd

/-- `apply_hdbscan` (lines 192-225).  The HDBSCAN library call itself is an
external collaborator and is abstracted as `labelFn`, the list of cluster
labels `fit_predict` assigns to the points (`-1` marks noise).  Below the
minimum cluster size the function is the singleton pass-through of line 195.
The `none` centroid branch is unreachable: every emitted label has at least
one member, so `calculate_centroid` is applied to a nonempty list. -/
def apply_hdbscan (labelFn : List Point → List ℤ) (coords : List Point)
    (weights : List ℚ) (min_cluster_size : ℕ) : List (Point × ℚ) :=
  if coords.length < min_cluster_size then coords.zip weights
  else
    let labels := labelFn coords
    (uniqueLabels labels).flatMap (fun label =>
      let cc := membersWith label labels coords
      let cw := membersWith label labels weights
      if label = -1 then cc.zip cw
      else
        match calculate_centroid cc (some cw) with
        | some c => [(c, cw.sum)]
        | none => [])

/-- `apply_capacity_kmeans` (lines 227-259).  `labelFn k points` abstracts
`KMeans(n_clusters=k).fit_predict(points)`. -/
def apply_capacity_kmeans (labelFn : ℕ → List Point → List ℤ) (coords : List Point)
    (weights : List ℚ) (max_cluster_size : ℕ) : List (Point × ℚ) :=
  if coords.length ≤ max_cluster_size then coords.zip weights
  else
    let k := max 2 (coords.length / max_cluster_size)
    let labels := labelFn k coords
    (uniqueLabels labels).flatMap (fun label =>
      let cc := membersWith label labels coords
      let cw := membersWith label labels weights
      match calculate_centroid cc (some cw) with
      | some c => [(c, cw.sum)]
      | none => [])

/-- `_perform_clustering` (lines 261-339): groups the points into clusters of
`(coordinates, weights)` pairs.  Below the size threshold, or for an unknown
method string, ALL points are returned as ONE cluster. -/
def perform_clustering (hdbscanLabels : ℕ → List Point → List ℤ)
    (kmeansLabels : ℕ → List Point → List ℤ) (coords : List Point)
    (weights : List ℚ) (method : String) (param : ℤ) :
    List (List Point × List ℚ) :=
  if coords = [] then []
  else if pyLower method = "hdbscan" then
    let mcs : ℕ := if 0 < param then param.toNat else 5
    if coords.length < mcs then [(coords, weights)]
    else
      let labels := hdbscanLabels mcs coords
      (uniqueLabels labels).map (fun label =>
        (membersWith label labels coords, membersWith label labels weights))
  else if pyLower method = "kmeans" then
    let maxcs : ℕ := if 0 < param then param.toNat else 10
    if coords.length ≤ maxcs then [(coords, weights)]
    else
      let k := max 2 (coords.length / maxcs)
      let labels := kmeansLabels k coords
      (uniqueLabels labels).map (fun label =>
        (membersWith label labels coords, membersWith label labels weights))
  else [(coords, weights)]

/-- Lines 717-727 of `find_optimal_point_with_clustering`: one virtual
location (weighted centroid, summed weight) per nonempty cluster. -/
def clusterVirtualLocations (clusters : List (List Point × List ℚ)) : List (Point × ℚ) :=
  clusters.filterMap (fun cl =>
    if cl.1 = [] then none
    else (calculate_centroid cl.1 (some cl.2)).map (fun c => (c, cl.2.sum)))

/-- The `clustering_method` argument of `find_optimal_point` as Python sees
it: absent (`None`), a string, or — through the positional-argument call at
line 733 — an integer. -/
abbrev ClusteringArg : Type := Option (String ⊕ ℤ)

/-- Python truthiness of the `clustering_method` value at line 359:
`None` and the empty string and the integer 0 are falsy. -/
def pyTruthy : ClusteringArg → Bool
  | none => false
  | some (Sum.inl s) => s ≠ ""
  | some (Sum.inr n) => n ≠ 0

/-- Lines 428-565 of `find_optimal_point`, shared by both the clustered and
the unclustered branch: compute the initial metric at the start point, run
the coordinate-descent loop from radius `search_step * 0.000009`, then build
the secondary per-location report and the pure total against the ORIGINAL
coordinates.  (`current_time is None` at line 428 is dead code: the cost
evaluators always return an integer.) -/
def runSearch (api : MapAPI) (coords : List Point) (weights : Option (List ℚ))
    (algorithm_type : String) (start : Point) (search_step : ℚ) :
    Except String FOPResult :=
  let current_time := evalMetric api algorithm_type coords weights start
  let radius := search_step * (9 / 1000000)
  let st0 : LoopState := ⟨start, current_time, radius, 0⟩
  let fin := loopFuel (evalMetric api algorithm_type coords weights) (stateFuel st0) st0
  match secondaryPass api fin.point weights coords 0 with
  | .error e => .error e
  | .ok indiv =>
      .ok ⟨fin.point, fin.time, calculate_pure_total_time api fin.point coords,
           indiv, fin.iterations⟩

/-- `find_optimal_point` (lines 341-565).  `.ok none` models the bare
`return None` on an empty coordinate list; `.error` models an uncaught
exception.  `hdbscanLabels`/`kmeansLabels` abstract the external clustering
libraries as in `apply_hdbscan`/`apply_capacity_kmeans`.  The
`min_cluster_size`/`max_cluster_size` slots are typed `ℕ` although the call
at line 733 passes a string into the former: that value is only ever read on
paths that have already raised (`clustering_method.lower()` on an integer),
so it never reaches a use. -/
def findOptimalPoint (api : MapAPI) (hdbscanLabels kmeansLabels : ℕ → List Point → List ℤ)
    (coords : List Point) (weights : Option (List ℚ)) (clustering_method : ClusteringArg)
    (min_cluster_size : ℕ) (max_cluster_size : ℕ) (search_step : ℚ)
    (algorithm_type : String) : Except String (Option FOPResult) :=
  if coords = [] then .ok none
  else
    -- lines 355-356: default to HDBSCAN above the threshold when no method given
    let method : ClusteringArg :=
      if cluster_threshold < coords.length ∧ clustering_method = none
      then some (Sum.inl "hdbscan") else clustering_method
    if pyTruthy method ∧ cluster_threshold < coords.length then
      match method with
      | none => .error "unreachable: truthy None"
      | some (Sum.inr _) =>
          -- line 361: `clustering_method.lower()` on an integer
          .error "AttributeError: int object has no attribute lower"
      | some (Sum.inl s) =>
          match weights with
          | none =>
              -- `zip(coordinates, None)` / `None[i]` inside the clusterers
              .error "TypeError: NoneType weights in clustering branch"
          | some ws =>
              let cluster_centers : List (Point × ℚ) :=
                if pyLower s = "hdbscan" then
                  apply_hdbscan (hdbscanLabels min_cluster_size) coords ws min_cluster_size
                else if pyLower s = "kmeans" then
                  apply_capacity_kmeans kmeansLabels coords ws max_cluster_size
                else coords.zip ws
              match calculate_centroid (cluster_centers.map Prod.fst)
                  (some (cluster_centers.map Prod.snd)) with
              | none => .error "TypeError: NoneType is not subscriptable"
              | some current_point =>
                  -- lines 393-398: the metric is evaluated against the ORIGINAL
                  -- coordinates and weights even in the clustered branch
                  (runSearch api coords weights algorithm_type current_point search_step).map some
    else
      match calculate_centroid coords weights with
      | none => .error "unreachable: nonempty coordinates"
      | some current_point =>
          (runSearch api coords weights algorithm_type current_point search_step).map some

/-- Lines 703-705: default the weight list to all ones when absent. -/
def defaultWeights (n : ℕ) (weights : Option (List ℚ)) : List ℚ :=
  match weights with
  | none => List.replicate n (1 : ℚ)
  | some w => w

/-- `find_optimal_point_with_clustering` (lines 686-799).  Note the
positional-argument call at line 733: `search_step` lands in the
`clustering_method` slot and `algorithm_type` in the `min_cluster_size`
slot, so the inner search runs with its DEFAULT `search_step = 100` and
DEFAULT `algorithm_type = 'total_cost'`; the final report is then
recomputed against the original coordinates with the caller's tag. -/
def findOptimalPointWithClustering (api : MapAPI)
    (hdbscanLabels kmeansLabels : ℕ → List Point → List ℤ) (coords : List Point)
    (weights : Option (List ℚ)) (method : String) (param : ℤ) (search_step : ℤ)
    (algorithm_type : String) : Except String FOPResult :=
  if coords = [] then .error "ValueError: coordinate list must not be empty"
  else
    let ws := defaultWeights coords.length weights
    if coords.length ≠ ws.length then
      .error "ValueError: coordinate and weight lists must have equal length"
    else
      let clusters := perform_clustering hdbscanLabels kmeansLabels coords ws method param
      if clusters = [] then .error "ValueError: clustering failed"
      else
        let centroidPairs := clusterVirtualLocations clusters
        if centroidPairs.map Prod.fst = [] then .error "ValueError: no cluster centroids"
        else
          -- line 733 (positional slip, see the doc comment above); the string
          -- `algorithm_type` occupies the `min_cluster_size` slot, written 5
          -- here because the slot is never read on a non-raising path
          match findOptimalPoint api hdbscanLabels kmeansLabels (centroidPairs.map Prod.fst)
              (some (centroidPairs.map Prod.snd)) (some (Sum.inr search_step)) 5 10 100
              "total_cost" with
          | .error e => .error e
          | .ok none => .error "TypeError: NoneType is not subscriptable"
          | .ok (some r) =>
              -- lines 737-740: final recompute against the ORIGINAL set
              match secondaryPass api r.optimal_point (some ws) coords 0 with
              | .error e => .error e
              | .ok indiv =>
                  .ok { r with
                          total_time :=
                            if algorithm_type = "min_max_time" then
                              calculate_max_time api r.optimal_point coords
                            else calculate_total_time api r.optimal_point coords (some ws)
                          pure_total_time := calculate_pure_total_time api r.optimal_point coords
                          individual_times := indiv }

/-! ### Specification-side formulations

The following definitions transcribe the SPEC's wording (not the source) and
are used to compare the embedded code against the specified behaviour. -/

/-- Spec §4.2: the route times that succeed from a candidate point, in
location order (the cost evaluators round both endpoints before the oracle
call). -/
def specSuccessTimes (api : MapAPI) (p : Point) (coords : List Point) : List ℕ :=
  coords.filterMap (fun c => routeLookup api (round6P p) (round6P c))

/-- Spec §4.2: `cost(point) = Σ weight_i * routeTime(point, location_i)` over
the locations whose lookup succeeds. -/
def specWeightedSum (api : MapAPI) (p : Point) (coords : List Point) (ws : List ℚ) : ℚ :=
  ((coords.zip ws).filterMap
    (fun cw => (routeLookup api (round6P p) (round6P cw.1)).map
      (fun t : ℕ => (t : ℚ) * cw.2))).sum

/-- Spec §4.1: `sum(point_i * weight_i) / sum(weight_i)` per axis, rounded to
6 decimals, written as an indexed sum. -/
def specCentroid (coords : List Point) (ws : List ℚ) : Point :=
  (round6 ((∑ i ∈ Finset.range coords.length,
      (coords.getD i (0, 0)).1 * ws.getD i 0) / ws.sum),
   round6 ((∑ i ∈ Finset.range coords.length,
      (coords.getD i (0, 0)).2 * ws.getD i 0) / ws.sum))

/-- Spec §4.1: the unweighted arithmetic mean, written as an indexed sum. -/
def specMean (coords : List Point) : Point :=
  ((∑ i ∈ Finset.range coords.length, (coords.getD i (0, 0)).1) / (coords.length : ℚ),
   (∑ i ∈ Finset.range coords.length, (coords.getD i (0, 0)).2) / (coords.length : ℚ))

/-! ### Concrete fixtures for witnesses and counterexamples -/

/-- An oracle pricing every pair at 10 seconds via `calculate_route`. -/
def apiTen : MapAPI := ⟨fun _ _ => some 10, fun _ _ => none⟩

/-- An oracle pricing every pair at 3 seconds via `calculate_route`. -/
def apiThree : MapAPI := ⟨fun _ _ => some 3, fun _ _ => none⟩

/-- A coordinate that changes under rounding to 6 decimals. -/
def unroundedPt : Point := (1/2000000, 0)

/-- An oracle that prices only the destination `unroundedPt` — a point NOT
fixed by 6-decimal rounding — and fails everywhere else. -/
def apiUnrounded : MapAPI :=
  ⟨fun _ d => if d = unroundedPt then some 5 else none, fun _ _ => none⟩

/-- A trivial stand-in for the external clustering libraries. -/
def labels0 : ℕ → List Point → List ℤ := fun _ _ => []

/-- An oracle for which every lookup fails. -/
def apiFail : MapAPI := ⟨fun _ _ => none, fun _ _ => none⟩

/-! ### Rounding lemmas -/

theorem roundHalfEven_intCast (k : ℤ) : roundHalfEven (k : ℚ) = k := by
  unfold roundHalfEven
  simp only [Int.floor_intCast, sub_self]
  norm_num

theorem round6_round6 (q : ℚ) : round6 (round6 q) = round6 q := by
  unfold round6
  rw [div_mul_cancel₀ _ (by norm_num : (1000000 : ℚ) ≠ 0), roundHalfEven_intCast]

theorem round6P_round6P (p : Point) : round6P (round6P p) = round6P p := by
  unfold round6P
  rw [round6_round6, round6_round6]

/-! ### Termination of the probing loop -/

theorem probeFirst_lt (costF : Point → ℕ) (cur : ℕ) (p : Point) (r : ℚ) :
    ∀ ds np m, probeFirst costF cur p r ds = some (np, m) → m < cur := by
  intro ds
  induction ds with
  | nil => intro np m h; simp [probeFirst] at h
  | cons d ds ih =>
      intro np m h
      simp only [probeFirst] at h
      split at h
      · next hc =>
          injection h with h'
          injection h' with h1 h2
          exact h2 ▸ hc
      · exact ih np m h

theorem radiusFuel_halve {r : ℚ} (h : min_radius ≤ r) :
    radiusFuel (r / 2) < radiusFuel r := by
  have hx : (1 : ℚ) ≤ r * 10000 := by
    unfold min_radius at h; linarith
  have h1 : 1 ≤ ⌊r * 10000⌋₊ := Nat.le_floor (by exact_mod_cast hx)
  have h2 : r / 2 * 10000 = r * 10000 / 2 := by ring
  unfold radiusFuel
  rw [h2, Nat.floor_div_ofNat]
  exact Nat.div_lt_self h1 one_lt_two

theorem radiusFuel_pos {r : ℚ} (h : min_radius ≤ r) : 1 ≤ radiusFuel r := by
  have hx : (1 : ℚ) ≤ r * 10000 := by
    unfold min_radius at h; linarith
  exact Nat.le_floor (by exact_mod_cast hx)

theorem stateFuel_step (costF : Point → ℕ) (st : LoopState)
    (h : min_radius ≤ st.radius) :
    stateFuel (stepState costF st) < stateFuel st := by
  unfold stepState
  cases hp : probeFirst costF st.time st.point st.radius directions with
  | some pm =>
      obtain ⟨np, m⟩ := pm
      have hm := probeFirst_lt costF st.time st.point st.radius directions np m hp
      unfold stateFuel
      simp only
      omega
  | none =>
      unfold stateFuel
      simp only
      have := radiusFuel_halve h
      omega

theorem loopFuel_stop (costF : Point → ℕ) (n : ℕ) (st : LoopState)
    (h : ¬ min_radius ≤ st.radius) : loopFuel costF n st = st := by
  cases n <;> simp [loopFuel, h]

theorem loopFuel_converged (costF : Point → ℕ) :
    ∀ n st, stateFuel st ≤ n → (loopFuel costF n st).radius < min_radius := by
  intro n
  induction n with
  | zero =>
      intro st h
      by_contra hc
      simp only [loopFuel] at hc
      push_neg at hc
      have h1 := radiusFuel_pos hc
      unfold stateFuel at h
      omega
  | succ n ih =>
      intro st h
      by_cases hc : min_radius ≤ st.radius
      · rw [loopFuel, if_pos hc]
        exact ih _ (by have := stateFuel_step costF st hc; omega)
      · rw [loopFuel, if_neg hc]
        exact lt_of_not_ge hc

theorem loopFuel_add (costF : Point → ℕ) :
    ∀ a b st, loopFuel costF (a + b) st = loopFuel costF b (loopFuel costF a st) := by
  intro a
  induction a with
  | zero => intro b st; simp [loopFuel]
  | succ a ih =>
      intro b st
      by_cases hc : min_radius ≤ st.radius
      · have hr : a + 1 + b = (a + b) + 1 := by omega
        rw [hr, loopFuel, if_pos hc, loopFuel, if_pos hc, ih]
      · rw [loopFuel_stop _ _ _ hc, loopFuel_stop _ _ _ hc, loopFuel_stop _ _ _ hc]

theorem loopFuel_stable (costF : Point → ℕ) (st : LoopState) {n : ℕ}
    (h : stateFuel st ≤ n) :
    loopFuel costF n st = loopFuel costF (stateFuel st) st := by
  obtain ⟨k, rfl⟩ := Nat.exists_eq_add_of_le h
  rw [loopFuel_add]
  exact loopFuel_stop _ _ _ (not_le_of_lt (loopFuel_converged costF _ _ le_rfl))

/-! ### Claim C1 -/

/-- **C1.** One probing iteration evaluates the four candidates offset by
`±radius` along the axes in the order East `(+lat)`, North `(+lng)`,
West `(-lat)`, South `(-lng)`; the FIRST candidate whose cost is strictly
below the current cost is accepted (point and cost update, radius kept);
if none improves, the radius is halved and the point kept. -/
theorem probing_first_improvement (costF : Point → ℕ) (st : LoopState) :
    stepState costF st =
      match ([(round6 (st.point.1 + st.radius), round6 st.point.2),
              (round6 st.point.1, round6 (st.point.2 + st.radius)),
              (round6 (st.point.1 - st.radius), round6 st.point.2),
              (round6 st.point.1, round6 (st.point.2 - st.radius))].find?
              (fun np => costF np < st.time)) with
      | some np => ⟨np, costF np, st.radius, st.iterations + 1⟩
      | none => ⟨st.point, st.time, st.radius / 2, st.iterations + 1⟩ := by
  have e1 : probeCandidate st.point st.radius (1, 0)
      = (round6 (st.point.1 + st.radius), round6 st.point.2) := by
    simp [probeCandidate]
  have e2 : probeCandidate st.point st.radius (0, 1)
      = (round6 st.point.1, round6 (st.point.2 + st.radius)) := by
    simp [probeCandidate]
  have e3 : probeCandidate st.point st.radius (-1, 0)
      = (round6 (st.point.1 - st.radius), round6 st.point.2) := by
    simp [probeCandidate, sub_eq_add_neg]
  have e4 : probeCandidate st.point st.radius (0, -1)
      = (round6 st.point.1, round6 (st.point.2 - st.radius)) := by
    simp [probeCandidate, sub_eq_add_neg]
  unfold stepState
  simp only [directions, probeFirst, e1, e2, e3, e4]
  by_cases h1 : costF (round6 (st.point.1 + st.radius), round6 st.point.2) < st.time <;>
    by_cases h2 : costF (round6 st.point.1, round6 (st.point.2 + st.radius)) < st.time <;>
      by_cases h3 : costF (round6 (st.point.1 - st.radius), round6 st.point.2) < st.time <;>
        by_cases h4 : costF (round6 st.point.1, round6 (st.point.2 - st.radius)) < st.time <;>
          simp [List.find?, h1, h2, h3, h4]

/-! ### Claim C2 -/

/-- **C2.** For every routing oracle, objective tag, location list and weight
list, the coordinate-descent loop terminates: run with the fuel budget
`stateFuel` (current cost plus the radius measured in units of the floor),
the loop reaches a state whose radius is strictly below the `0.0001`-degree
floor, and any larger fuel budget computes the same final state — each
iteration either strictly decreases the natural-number cost or halves the
radius. -/
theorem search_loop_terminates (api : MapAPI) (algorithm_type : String)
    (coords : List Point) (weights : Option (List ℚ)) (st : LoopState) :
    (loopFuel (evalMetric api algorithm_type coords weights) (stateFuel st) st).radius
        < min_radius
    ∧ ∀ n, stateFuel st ≤ n →
        loopFuel (evalMetric api algorithm_type coords weights) n st
          = loopFuel (evalMetric api algorithm_type coords weights) (stateFuel st) st :=
  ⟨loopFuel_converged _ _ _ le_rfl, fun _ h => loopFuel_stable _ _ h⟩

/-- Witness for C2 at a concrete state and oracle. -/
theorem search_loop_terminates_witness :
    (loopFuel (evalMetric apiTen "total_cost" [((0 : ℚ), (0 : ℚ))] (some [1]))
        (stateFuel ⟨(0, 0), 10, 9/10000, 0⟩) ⟨(0, 0), 10, 9/10000, 0⟩).radius < min_radius
    ∧ loopFuel (evalMetric apiTen "total_cost" [((0 : ℚ), (0 : ℚ))] (some [1]))
        25 ⟨(0, 0), 10, 9/10000, 0⟩
      = loopFuel (evalMetric apiTen "total_cost" [((0 : ℚ), (0 : ℚ))] (some [1]))
        (stateFuel ⟨(0, 0), 10, 9/10000, 0⟩) ⟨(0, 0), 10, 9/10000, 0⟩ :=
  ⟨(search_loop_terminates apiTen "total_cost" [((0 : ℚ), (0 : ℚ))] (some [1]) _).1,
   (search_loop_terminates apiTen "total_cost" [((0 : ℚ), (0 : ℚ))] (some [1])
      ⟨(0, 0), 10, 9/10000, 0⟩).2 25 (by norm_num [stateFuel, radiusFuel])⟩

/-! ### Claim C4: the cost evaluators -/

theorem totalTimeLoop_eq_sum (api : MapAPI) (rp : Point) :
    ∀ l : List (Point × ℚ), totalTimeLoop api rp l
      = (l.filterMap (fun cw => (routeLookup api rp (round6P cw.1)).map
          (fun t : ℕ => (t : ℚ) * cw.2))).sum := by
  intro l
  induction l with
  | nil => simp [totalTimeLoop]
  | cons cw rest ih =>
      obtain ⟨c, w⟩ := cw
      simp only [totalTimeLoop, List.filterMap_cons]
      cases routeLookup api rp (round6P c) with
      | none => simpa using ih
      | some t => simp [ih]

theorem pureTimeLoop_eq_sum (api : MapAPI) (rp : Point) :
    ∀ l : List Point, pureTimeLoop api rp l
      = (l.filterMap (fun c => routeLookup api rp (round6P c))).sum := by
  intro l
  induction l with
  | nil => simp [pureTimeLoop]
  | cons c rest ih =>
      simp only [pureTimeLoop, List.filterMap_cons]
      cases routeLookup api rp (round6P c) with
      | none => simpa using ih
      | some t => simp [ih]

theorem maxTimeLoop_eq_foldr (api : MapAPI) (rp : Point) :
    ∀ (l : List Point) (m : ℕ), maxTimeLoop api rp l m
      = max m ((l.filterMap (fun c => routeLookup api rp (round6P c))).foldr max 0) := by
  intro l
  induction l with
  | nil => intro m; simp [maxTimeLoop]
  | cons c rest ih =>
      intro m
      simp only [maxTimeLoop, List.filterMap_cons]
      cases routeLookup api rp (round6P c) with
      | none => simpa using ih m
      | some t =>
          have h : (if m < t then t else m) = max m t := by
            rw [Nat.max_def]; split <;> split <;> omega
          simp only [h, ih, List.foldr_cons, Nat.max_assoc]

theorem foldr_max_le_mem {l : List ℕ} {t : ℕ} (h : t ∈ l) : t ≤ l.foldr max 0 := by
  induction l with
  | nil => cases h
  | cons a rest ih =>
      rcases List.mem_cons.mp h with rfl | h'
      · exact le_max_left _ _
      · exact le_trans (ih h') (le_max_right _ _)

/-- **C4 (amended).** The weighted-sum cost equals the INTEGER TRUNCATION
(floor) of `Σ weight_i * routeTime_i` over the locations whose lookup
succeeds when that sum is positive, and 0 otherwise (not the exact sum — see
the counterexample); the min-max cost equals the maximum over the successful
route times; a lookup returning unknown is skipped in both; both results are
non-negative integers by construction; when every lookup fails both costs are
exactly 0. -/
theorem cost_evaluator_characterization (api : MapAPI) (p : Point)
    (coords : List Point) (weights : Option (List ℚ)) :
    (calculate_total_time api p coords weights
        = if 0 < specWeightedSum api p coords (resolveWeights coords.length weights)
          then (⌊specWeightedSum api p coords (resolveWeights coords.length weights)⌋).toNat
          else 0)
    ∧ calculate_max_time api p coords = (specSuccessTimes api p coords).foldr max 0
    ∧ (∀ t ∈ specSuccessTimes api p coords, t ≤ calculate_max_time api p coords)
    ∧ (specSuccessTimes api p coords = [] →
        calculate_total_time api p coords weights = 0
        ∧ calculate_max_time api p coords = 0) := by
  have hmax : calculate_max_time api p coords = (specSuccessTimes api p coords).foldr max 0 := by
    simp only [calculate_max_time, specSuccessTimes]
    rw [maxTimeLoop_eq_foldr]
    simp only [Nat.zero_max]
    split
    · rfl
    · omega
  have htot : calculate_total_time api p coords weights
      = if 0 < specWeightedSum api p coords (resolveWeights coords.length weights)
        then (⌊specWeightedSum api p coords (resolveWeights coords.length weights)⌋).toNat
        else 0 := by
    simp only [calculate_total_time, specWeightedSum]
    rw [totalTimeLoop_eq_sum]
  refine ⟨htot, hmax, ?_, ?_⟩
  · intro t ht
    rw [hmax]
    exact foldr_max_le_mem ht
  · intro hnil
    have hall : ∀ c ∈ coords, routeLookup api (round6P p) (round6P c) = none :=
      List.filterMap_eq_nil_iff.mp hnil
    constructor
    · rw [htot]
      have hz : specWeightedSum api p coords (resolveWeights coords.length weights) = 0 := by
        unfold specWeightedSum
        have : ∀ cw ∈ coords.zip (resolveWeights coords.length weights),
            (routeLookup api (round6P p) (round6P cw.1)).map (fun t : ℕ => (t : ℚ) * cw.2)
              = none := by
          intro cw hcw
          obtain ⟨h1, _⟩ := List.of_mem_zip hcw
          rw [hall cw.1 h1]
          rfl
        rw [List.filterMap_eq_nil_iff.mpr this]
        rfl
      rw [hz]
      norm_num
    · rw [hmax, hnil]
      rfl

/-- Witness for C4 at a concrete oracle where every lookup fails. -/
theorem cost_evaluator_characterization_witness :
    calculate_total_time apiFail (0, 0) [((0 : ℚ), (0 : ℚ))] (some [1]) = 0
    ∧ calculate_max_time apiFail (0, 0) [((0 : ℚ), (0 : ℚ))] = 0 :=
  (cost_evaluator_characterization apiFail (0, 0) [((0 : ℚ), (0 : ℚ))] (some [1])).2.2.2
    (by simp [specSuccessTimes, routeLookup, apiFail])

/-- **C4 counterexample.** With a single location priced at 3 seconds and
weight `1/2`, the claimed cost `Σ weight_i * t_i = 3/2` differs from the
returned cost, which is the truncation `int(3/2) = 1`. -/
theorem weighted_sum_exact_counterexample :
    calculate_total_time apiThree (0, 0) [((0 : ℚ), (0 : ℚ))] (some [1/2]) = 1
    ∧ specWeightedSum apiThree (0, 0) [((0 : ℚ), (0 : ℚ))] [1/2] = 3/2
    ∧ ((1 : ℚ) ≠ 3/2) := by
  refine ⟨?_, ?_, by norm_num⟩
  · simp only [calculate_total_time, resolveWeights, totalTimeLoop, routeLookup, apiThree,
      List.length_cons, List.length_nil, List.zip_cons_cons, List.zip_nil_right]
    norm_num
  · simp only [specWeightedSum, routeLookup, apiThree, List.zip_cons_cons,
      List.zip_nil_right, List.filterMap_cons, Option.map_some']
    norm_num

/-! ### Claim C5: the weighted centroid -/

theorem map_sum_eq_range (f : Point → ℚ) :
    ∀ coords : List Point, (coords.map f).sum
      = ∑ i ∈ Finset.range coords.length, f (coords.getD i (0, 0)) := by
  intro coords
  induction coords with
  | nil => simp
  | cons p cs ih =>
      rw [List.map_cons, List.sum_cons, List.length_cons, Finset.sum_range_succ', ih]
      simp [add_comm]

theorem zipmap_sum_eq_range (f : Point → ℚ) :
    ∀ (coords : List Point) (ws : List ℚ), ws.length = coords.length →
      ((coords.zip ws).map (fun pw => f pw.1 * pw.2)).sum
        = ∑ i ∈ Finset.range coords.length, f (coords.getD i (0, 0)) * ws.getD i 0 := by
  intro coords
  induction coords with
  | nil => intro ws _; simp
  | cons p cs ih =>
      intro ws h
      cases ws with
      | nil => simp at h
      | cons w rest =>
          simp only [List.length_cons] at h
          rw [List.zip_cons_cons, List.map_cons, List.sum_cons, List.length_cons,
              Finset.sum_range_succ', ih rest (by omega)]
          simp [add_comm]

/-- **C5.** For a non-empty point list and an equal-length weight list, the
centroid is, per axis, `sum(point_i * weight_i) / sum(weight_i)` rounded to 6
decimals when the weights do not sum to 0, and the unweighted arithmetic mean
when they do; for the four corners of a 2x2-degree square with weight 1 it
returns the exact centre of the square. -/
theorem weighted_centroid_formula :
    (∀ (coords : List Point) (ws : List ℚ), coords ≠ [] → ws.length = coords.length →
      calculate_centroid coords (some ws)
        = some (if ws.sum = 0 then specMean coords else specCentroid coords ws))
    ∧ calculate_centroid [((39 : ℚ), (-73 : ℚ)), (39, -71), (41, -73), (41, -71)]
        (some [1, 1, 1, 1]) = some (40, -72) := by
  have main : ∀ (coords : List Point) (ws : List ℚ), coords ≠ [] → ws.length = coords.length →
      calculate_centroid coords (some ws)
        = some (if ws.sum = 0 then specMean coords else specCentroid coords ws) := by
    intro coords ws hne hlen
    have h1 := zipmap_sum_eq_range (fun p => p.1) coords ws hlen
    have h2 := zipmap_sum_eq_range (fun p => p.2) coords ws hlen
    simp only at h1 h2
    have m1 := map_sum_eq_range Prod.fst coords
    have m2 := map_sum_eq_range Prod.snd coords
    simp only [calculate_centroid, if_neg hne, resolveWeights, hlen, ne_eq,
      not_true_eq_false, if_false]
    by_cases hz : ws.sum = 0
    · rw [if_pos hz, if_pos hz]
      unfold specMean
      rw [m1, m2]
    · rw [if_neg hz, if_neg hz]
      unfold specCentroid
      rw [h1, h2]
  refine ⟨main, ?_⟩
  rw [main _ _ (by simp) (by simp)]
  have hsum : ([1, 1, 1, 1] : List ℚ).sum = 4 := by norm_num
  rw [if_neg (by rw [hsum]; norm_num)]
  have e1 : specCentroid [((39 : ℚ), (-73 : ℚ)), (39, -71), (41, -73), (41, -71)]
      [1, 1, 1, 1] = (round6 40, round6 (-72)) := by
    unfold specCentroid
    norm_num [Finset.sum_range_succ]
  rw [e1]
  have r1 : round6 (40 : ℚ) = 40 := by rw [round6]; norm_num [roundHalfEven]
  have r2 : round6 (-72 : ℚ) = -72 := by rw [round6]; norm_num [roundHalfEven]
  rw [r1, r2]

/-- Witness for C5 at the square corners. -/
theorem weighted_centroid_formula_witness :
    calculate_centroid [((39 : ℚ), (-73 : ℚ)), (39, -71), (41, -73), (41, -71)]
        (some [1, 1, 1, 1])
      = some (if ([1, 1, 1, 1] : List ℚ).sum = 0
          then specMean [((39 : ℚ), (-73 : ℚ)), (39, -71), (41, -73), (41, -71)]
          else specCentroid [((39 : ℚ), (-73 : ℚ)), (39, -71), (41, -73), (41, -71)]
            [1, 1, 1, 1]) :=
  weighted_centroid_formula.1 _ _ (by simp) (by simp)

/-! ### Claim C9: rounding of coordinates passed to the oracle -/

/-- **C9 (amended).** The COST EVALUATORS consult the oracle only at pairs
that are fixed by 6-decimal rounding — two oracles agreeing on all rounded
pairs yield identical weighted, pure and max costs — and every probe
candidate is already rounded; but the per-location secondary pass passes the
ORIGINAL coordinates unrounded (see the counterexample). -/
theorem cost_evaluation_only_rounded_pairs (api1 api2 : MapAPI)
    (hroute : ∀ a b : Point, round6P a = a → round6P b = b →
      api1.calculate_route a b = api2.calculate_route a b)
    (htime : ∀ a b : Point, round6P a = a → round6P b = b →
      api1.calculate_route_time a b = api2.calculate_route_time a b)
    (p : Point) (coords : List Point) (weights : Option (List ℚ))
    (algorithm_type : String) (r : ℚ) (d : ℤ × ℤ) :
    calculate_total_time api1 p coords weights = calculate_total_time api2 p coords weights
    ∧ calculate_pure_total_time api1 p coords = calculate_pure_total_time api2 p coords
    ∧ calculate_max_time api1 p coords = calculate_max_time api2 p coords
    ∧ evalMetric api1 algorithm_type coords weights p
        = evalMetric api2 algorithm_type coords weights p
    ∧ round6P (probeCandidate p r d) = probeCandidate p r d := by
  have hlk : ∀ q c : Point, routeLookup api1 (round6P q) (round6P c)
      = routeLookup api2 (round6P q) (round6P c) := by
    intro q c
    unfold routeLookup
    rw [hroute _ _ (round6P_round6P q) (round6P_round6P c),
        htime _ _ (round6P_round6P q) (round6P_round6P c)]
  have htotl : ∀ l, totalTimeLoop api1 (round6P p) l = totalTimeLoop api2 (round6P p) l := by
    intro l
    induction l with
    | nil => rfl
    | cons cw rest ih =>
        obtain ⟨c, w⟩ := cw
        simp only [totalTimeLoop, hlk p c, ih]
  have hpurel : ∀ l, pureTimeLoop api1 (round6P p) l = pureTimeLoop api2 (round6P p) l := by
    intro l
    induction l with
    | nil => rfl
    | cons c rest ih => simp only [pureTimeLoop, hlk p c, ih]
  have hmaxl : ∀ l m, maxTimeLoop api1 (round6P p) l m = maxTimeLoop api2 (round6P p) l m := by
    intro l
    induction l with
    | nil => intro m; rfl
    | cons c rest ih => intro m; simp only [maxTimeLoop, hlk p c, ih]
  have h1 : calculate_total_time api1 p coords weights
      = calculate_total_time api2 p coords weights := by
    simp only [calculate_total_time, htotl]
  have h2 : calculate_pure_total_time api1 p coords
      = calculate_pure_total_time api2 p coords := by
    simp only [calculate_pure_total_time, hpurel]
  have h3 : calculate_max_time api1 p coords = calculate_max_time api2 p coords := by
    simp only [calculate_max_time, hmaxl]
  refine ⟨h1, h2, h3, ?_, ?_⟩
  · unfold evalMetric
    split
    · exact h3
    · exact h1
  · unfold probeCandidate round6P
    simp only [round6_round6]

/-- Witness for C9's amended statement: the agreement hypotheses hold
trivially for an oracle compared with itself. -/
theorem cost_evaluation_only_rounded_pairs_witness :
    calculate_total_time apiTen ((0 : ℚ), (0 : ℚ)) [((0 : ℚ), (0 : ℚ))] (some [1])
      = calculate_total_time apiTen ((0 : ℚ), (0 : ℚ)) [((0 : ℚ), (0 : ℚ))] (some [1])
    ∧ round6P (probeCandidate ((0 : ℚ), (0 : ℚ)) (9/10000) (1, 0))
      = probeCandidate ((0 : ℚ), (0 : ℚ)) (9/10000) (1, 0) :=
  ⟨(cost_evaluation_only_rounded_pairs apiTen apiTen (fun _ _ _ _ => rfl)
      (fun _ _ _ _ => rfl) ((0 : ℚ), (0 : ℚ)) [((0 : ℚ), (0 : ℚ))] (some [1]) "total_cost"
      (9/10000) (1, 0)).1,
   (cost_evaluation_only_rounded_pairs apiTen apiTen (fun _ _ _ _ => rfl)
      (fun _ _ _ _ => rfl) ((0 : ℚ), (0 : ℚ)) [((0 : ℚ), (0 : ℚ))] (some [1]) "total_cost"
      (9/10000) (1, 0)).2.2.2.2⟩

/-- **C9 counterexample.** An oracle that prices only the UNROUNDED
destination `(5e-7, 0)` is consulted successfully by the post-convergence
per-location pass (proving the pair was passed unrounded), while the cost
evaluator — which does round — misses it. -/
theorem secondary_pass_unrounded_counterexample :
    secondaryPass apiUnrounded (0, 0) (some [1]) [unroundedPt] 0
        = .ok [⟨0, unroundedPt, some 5, 1⟩]
    ∧ round6P unroundedPt ≠ unroundedPt
    ∧ calculate_pure_total_time apiUnrounded (0, 0) [unroundedPt] = 0 := by
  have hr : round6 ((1 : ℚ)/2000000) = 0 := by
    rw [round6]
    norm_num [roundHalfEven]
  have hr0 : round6 (0 : ℚ) = 0 := by
    rw [round6]
    norm_num [roundHalfEven]
  refine ⟨?_, ?_, ?_⟩
  · simp [secondaryPass, routeLookup, apiUnrounded, pyWeightAt]
  · simp only [round6P, unroundedPt, hr, hr0, ne_eq, Prod.mk.injEq]
    intro hcon
    have := hcon.1
    norm_num at this
  · have hne3 : ((round6 ((1 : ℚ)/2000000)), round6 (0 : ℚ)) ≠ ((1 : ℚ)/2000000, (0 : ℚ)) := by
      rw [hr, hr0]
      intro hcon
      have := (Prod.mk.injEq _ _ _ _ ▸ hcon).1
      norm_num at this
    simp only [calculate_pure_total_time, pureTimeLoop, routeLookup, apiUnrounded,
      round6P, unroundedPt, if_neg hne3]
    norm_num

/-! ### Claim C3: the clustered entry point reports against the originals -/

theorem pyWeightAt_ok {wl : List ℚ} {i : ℕ} {w : ℚ} :
    pyWeightAt (some wl) i = .ok w ↔ wl.get? i = some w := by
  unfold pyWeightAt
  rw [List.get?_eq_getElem?]
  cases h : wl[i]? <;> simp [h]

theorem secondaryPass_spec (api : MapAPI) (p : Point) (wl : List ℚ) :
    ∀ (cs : List Point) (i : ℕ) (out : List IndivEntry),
      secondaryPass api p (some wl) cs i = .ok out →
      out.length = cs.length
      ∧ ∀ j e, out.get? j = some e →
          e.point_index = i + j ∧ cs.get? j = some e.coordinates
          ∧ e.time_seconds = routeLookup api p e.coordinates
          ∧ wl.get? (i + j) = some e.weight := by
  intro cs
  induction cs with
  | nil =>
      intro i out h
      simp only [secondaryPass] at h
      cases h
      exact ⟨rfl, by intro j e hj; simp at hj⟩
  | cons c rest ih =>
      intro i out h
      simp only [secondaryPass] at h
      cases hw : pyWeightAt (some wl) i with
      | error e => rw [hw] at h; cases h
      | ok w =>
          rw [hw] at h
          cases hrest : secondaryPass api p (some wl) rest (i + 1) with
          | error e => rw [hrest] at h; cases h
          | ok out' =>
              rw [hrest] at h
              cases h
              obtain ⟨hlen, hget⟩ := ih (i + 1) out' hrest
              refine ⟨by simp [hlen], ?_⟩
              intro j e hj
              cases j with
              | zero =>
                  simp only [List.get?_cons_zero] at hj
                  injection hj with he
                  subst he
                  exact ⟨rfl, rfl, rfl, by simpa using pyWeightAt_ok.mp hw⟩
              | succ j =>
                  simp only [List.get?_cons_succ] at hj
                  obtain ⟨h1, h2, h3, h4⟩ := hget j e hj
                  refine ⟨by omega, by simpa using h2, h3, ?_⟩
                  have : i + (j + 1) = i + 1 + j := by omega
                  rw [this]
                  exact h4

theorem fopwc_ok_fields (api : MapAPI) (hdbL kmL : ℕ → List Point → List ℤ)
    (coords : List Point) (weights : Option (List ℚ)) (method : String) (param : ℤ)
    (search_step : ℤ) (tag : String) (r : FOPResult)
    (h : findOptimalPointWithClustering api hdbL kmL coords weights method param
        search_step tag = .ok r) :
    r.total_time = (if tag = "min_max_time" then calculate_max_time api r.optimal_point coords
        else calculate_total_time api r.optimal_point coords
          (some (defaultWeights coords.length weights)))
    ∧ r.pure_total_time = calculate_pure_total_time api r.optimal_point coords
    ∧ secondaryPass api r.optimal_point (some (defaultWeights coords.length weights)) coords 0
        = .ok r.individual_times := by
  simp only [findOptimalPointWithClustering] at h
  split at h
  · cases h
  split at h
  · cases h
  split at h
  · cases h
  split at h
  · cases h
  split at h
  · cases h
  · cases h
  split at h
  · cases h
  rename_i indiv hsp
  injection h with h'
  subst h'
  exact ⟨rfl, rfl, hsp⟩

/-- **C3.** Whenever the clustered entry point returns a result, the reported
`total_time` and `pure_total_time` are recomputed against the ORIGINAL
unclustered coordinates, and `individual_times` has exactly one entry per
original location, in input order, whose `time_seconds` is the oracle's
answer for that original location — `none` (unavailable) when the lookup
fails, never defaulted to 0 and never dropped. -/
theorem clustered_report_uses_original_locations (api : MapAPI)
    (hdbL kmL : ℕ → List Point → List ℤ) (coords : List Point)
    (weights : Option (List ℚ)) (method : String) (param : ℤ) (search_step : ℤ)
    (tag : String) (r : FOPResult)
    (h : findOptimalPointWithClustering api hdbL kmL coords weights method param
        search_step tag = .ok r) :
    r.individual_times.length = coords.length
    ∧ (∀ j e, r.individual_times.get? j = some e →
        e.point_index = j
        ∧ coords.get? j = some e.coordinates
        ∧ e.time_seconds = routeLookup api r.optimal_point e.coordinates
        ∧ (defaultWeights coords.length weights).get? j = some e.weight)
    ∧ r.total_time = (if tag = "min_max_time" then calculate_max_time api r.optimal_point coords
        else calculate_total_time api r.optimal_point coords
          (some (defaultWeights coords.length weights)))
    ∧ r.pure_total_time = calculate_pure_total_time api r.optimal_point coords := by
  obtain ⟨ht, hp, hsp⟩ :=
    fopwc_ok_fields api hdbL kmL coords weights method param search_step tag r h
  obtain ⟨hlen, hget⟩ :=
    secondaryPass_spec api r.optimal_point (defaultWeights coords.length weights)
      coords 0 r.individual_times hsp
  refine ⟨hlen, ?_, ht, hp⟩
  intro j e hj
  obtain ⟨h1, h2, h3, h4⟩ := hget j e hj
  exact ⟨by omega, h2, h3, by simpa using h4⟩

/-! ### Evaluation helpers for concrete runs -/

theorem round6_zero : round6 (0 : ℚ) = 0 := by
  rw [round6]
  norm_num [roundHalfEven]

theorem stepState_stall (costF : Point → ℕ) (st : LoopState)
    (h : ∀ q : Point, ¬ costF q < st.time) :
    stepState costF st = ⟨st.point, st.time, st.radius / 2, st.iterations + 1⟩ := by
  unfold stepState
  simp only [directions]
  simp [probeFirst, h]

theorem loopFuel_stall_count (costF : Point → ℕ) (c : ℕ)
    (h2 : ∀ q : Point, ¬ costF q < c) :
    ∀ (m n : ℕ) (p : Point) (r : ℚ) (k : ℕ), m ≤ n →
      (¬ min_radius ≤ r / 2 ^ m) → (∀ j < m, min_radius ≤ r / 2 ^ j) →
      loopFuel costF n ⟨p, c, r, k⟩ = ⟨p, c, r / 2 ^ m, k + m⟩ := by
  intro m
  induction m with
  | zero =>
      intro n p r k _ hstop _
      rw [pow_zero, div_one] at hstop
      rw [loopFuel_stop _ _ _ hstop]
      simp
  | succ m ih =>
      intro n p r k hmn hstop hgo
      cases n with
      | zero => omega
      | succ n =>
          have h1 : min_radius ≤ r := by
            have := hgo 0 (by omega)
            rwa [pow_zero, div_one] at this
          rw [loopFuel, if_pos h1, stepState_stall costF _ h2]
          have hstop' : ¬ min_radius ≤ r / 2 / 2 ^ m := by
            rw [div_div, ← pow_succ']
            exact hstop
          have hgo' : ∀ j < m, min_radius ≤ r / 2 / 2 ^ j := by
            intro j hj
            rw [div_div, ← pow_succ']
            exact hgo (j + 1) (by omega)
          rw [ih n p (r / 2) (k + 1) (by omega) hstop' hgo']
          rw [div_div, ← pow_succ']
          have hk : k + 1 + m = k + (m + 1) := by omega
          rw [hk]

theorem runSearch_stall (api : MapAPI) (coords : List Point) (weights : Option (List ℚ))
    (tag : String) (start : Point) (step : ℚ) (c m : ℕ)
    (hc : ∀ q : Point, evalMetric api tag coords weights q = c)
    (hm : m ≤ c + radiusFuel (step * (9 / 1000000)))
    (hstop : ¬ min_radius ≤ step * (9 / 1000000) / 2 ^ m)
    (hgo : ∀ j < m, min_radius ≤ step * (9 / 1000000) / 2 ^ j) :
    runSearch api coords weights tag start step
      = match secondaryPass api start weights coords 0 with
        | .error e => .error e
        | .ok indiv =>
            .ok ⟨start, c, calculate_pure_total_time api start coords, indiv, m⟩ := by
  have h2 : ∀ q : Point, ¬ evalMetric api tag coords weights q < c := by
    intro q
    rw [hc q]
    omega
  simp only [runSearch, hc start]
  rw [loopFuel_stall_count (evalMetric api tag coords weights) c h2 m _ start
      (step * (9 / 1000000)) 0 (by simpa [stateFuel] using hm) hstop hgo]
  simp only [zero_add]

theorem findOptimalPoint_basic (api : MapAPI) (hdbL kmL : ℕ → List Point → List ℤ)
    (coords : List Point) (weights : Option (List ℚ)) (cm : ClusteringArg)
    (mcs Mcs : ℕ) (step : ℚ) (tag : String) (cp : Point)
    (hne : coords ≠ [])
    (hsmall : ¬ cluster_threshold < coords.length)
    (hcp : calculate_centroid coords weights = some cp) :
    findOptimalPoint api hdbL kmL coords weights cm mcs Mcs step tag
      = (runSearch api coords weights tag cp step).map some := by
  simp only [findOptimalPoint, if_neg hne]
  rw [if_neg (fun hand => hsmall hand.2), hcp]

theorem resolveWeights_exact {n : ℕ} {ws : List ℚ} (h : ws.length = n) :
    resolveWeights n (some ws) = ws := by
  simp [resolveWeights, h]

theorem centroid_origin (w : ℚ) (hw : w ≠ 0) :
    calculate_centroid [((0 : ℚ), (0 : ℚ))] (some [w]) = some (0, 0) := by
  simp only [calculate_centroid]
  rw [resolveWeights_exact (by simp), if_neg (by simp), if_neg (by simpa using hw)]
  simp [List.zip_cons_cons, round6_zero]

theorem evalMetric_ten_one (q : Point) :
    evalMetric apiTen "total_cost" [((0 : ℚ), (0 : ℚ))] (some [1]) q = 10 := by
  rw [evalMetric, if_neg (by decide)]
  simp only [calculate_total_time, resolveWeights, totalTimeLoop, routeLookup, apiTen,
    List.length_cons, List.length_nil, List.zip_cons_cons, List.zip_nil_right]
  norm_num
  decide

theorem evalMetric_ten_negone (q : Point) :
    evalMetric apiTen "total_cost" [((0 : ℚ), (0 : ℚ))] (some [-1]) q = 0 := by
  rw [evalMetric, if_neg (by decide)]
  simp only [calculate_total_time, resolveWeights, totalTimeLoop, routeLookup, apiTen,
    List.length_cons, List.length_nil, List.zip_cons_cons, List.zip_nil_right]
  norm_num

theorem sp_ten (w : ℚ) :
    secondaryPass apiTen ((0 : ℚ), (0 : ℚ)) (some [w]) [((0 : ℚ), (0 : ℚ))] 0
      = .ok [⟨0, (0, 0), some 10, w⟩] := by
  simp [secondaryPass, routeLookup, apiTen, pyWeightAt]

theorem pure_ten :
    calculate_pure_total_time apiTen ((0 : ℚ), (0 : ℚ)) [((0 : ℚ), (0 : ℚ))] = 10 := by
  simp [calculate_pure_total_time, pureTimeLoop, routeLookup, apiTen]

theorem total_ten_one :
    calculate_total_time apiTen ((0 : ℚ), (0 : ℚ)) [((0 : ℚ), (0 : ℚ))] (some [1]) = 10 := by
  have := evalMetric_ten_one ((0 : ℚ), (0 : ℚ))
  rwa [evalMetric, if_neg (by decide)] at this

theorem total_ten_negone :
    calculate_total_time apiTen ((0 : ℚ), (0 : ℚ)) [((0 : ℚ), (0 : ℚ))] (some [-1]) = 0 := by
  have := evalMetric_ten_negone ((0 : ℚ), (0 : ℚ))
  rwa [evalMetric, if_neg (by decide)] at this

theorem fop_inner_ten_one (cm : ClusteringArg) :
    findOptimalPoint apiTen labels0 labels0 [((0 : ℚ), (0 : ℚ))] (some [1]) cm 5 10 100
        "total_cost"
      = .ok (some ⟨(0, 0), 10, 10, [⟨0, (0, 0), some 10, 1⟩], 4⟩) := by
  rw [findOptimalPoint_basic apiTen labels0 labels0 _ _ cm 5 10 100 "total_cost" (0, 0)
      (by simp) (by norm_num [cluster_threshold]) (centroid_origin 1 (by norm_num))]
  rw [runSearch_stall apiTen _ _ _ _ _ 10 4 evalMetric_ten_one
      (by norm_num [radiusFuel]) (by norm_num [min_radius])
      (by intro j hj; interval_cases j <;> norm_num [min_radius])]
  simp only [sp_ten, pure_ten, Except.map]

theorem fop_inner_ten_negone (cm : ClusteringArg) :
    findOptimalPoint apiTen labels0 labels0 [((0 : ℚ), (0 : ℚ))] (some [-1]) cm 5 10 100
        "total_cost"
      = .ok (some ⟨(0, 0), 0, 10, [⟨0, (0, 0), some 10, -1⟩], 4⟩) := by
  rw [findOptimalPoint_basic apiTen labels0 labels0 _ _ cm 5 10 100 "total_cost" (0, 0)
      (by simp) (by norm_num [cluster_threshold]) (centroid_origin (-1) (by norm_num))]
  rw [runSearch_stall apiTen _ _ _ _ _ 0 4 evalMetric_ten_negone
      (by norm_num [radiusFuel]) (by norm_num [min_radius])
      (by intro j hj; interval_cases j <;> norm_num [min_radius])]
  simp only [sp_ten, pure_ten, Except.map]

theorem fop_direct_step200 :
    findOptimalPoint apiTen labels0 labels0 [((0 : ℚ), (0 : ℚ))] (some [1]) none 5 10 200
        "total_cost"
      = .ok (some ⟨(0, 0), 10, 10, [⟨0, (0, 0), some 10, 1⟩], 5⟩) := by
  rw [findOptimalPoint_basic apiTen labels0 labels0 _ _ none 5 10 200 "total_cost" (0, 0)
      (by simp) (by norm_num [cluster_threshold]) (centroid_origin 1 (by norm_num))]
  rw [runSearch_stall apiTen _ _ _ _ _ 10 5 evalMetric_ten_one
      (by norm_num [radiusFuel]) (by norm_num [min_radius])
      (by intro j hj; interval_cases j <;> norm_num [min_radius])]
  simp only [sp_ten, pure_ten, Except.map]

theorem fop_direct_negstep :
    findOptimalPoint apiTen labels0 labels0 [((0 : ℚ), (0 : ℚ))] (some [1]) none 5 10 (-5)
        "total_cost"
      = .ok (some ⟨(0, 0), 10, 10, [⟨0, (0, 0), some 10, 1⟩], 0⟩) := by
  rw [findOptimalPoint_basic apiTen labels0 labels0 _ _ none 5 10 (-5) "total_cost" (0, 0)
      (by simp) (by norm_num [cluster_threshold]) (centroid_origin 1 (by norm_num))]
  rw [runSearch_stall apiTen _ _ _ _ _ 10 0 evalMetric_ten_one
      (by norm_num [radiusFuel]) (by norm_num [min_radius])
      (by intro j hj; omega)]
  simp only [sp_ten, pure_ten, Except.map]

theorem perform_clustering_single :
    perform_clustering labels0 labels0 [((0 : ℚ), (0 : ℚ))] [1] "HDBSCAN" 5
      = [([((0 : ℚ), (0 : ℚ))], [1])] := by
  simp only [perform_clustering]
  rw [if_neg (by simp), if_pos (show pyLower "HDBSCAN" = "hdbscan" from by decide),
    if_pos (by decide)]

theorem perform_clustering_single_negone :
    perform_clustering labels0 labels0 [((0 : ℚ), (0 : ℚ))] [-1] "HDBSCAN" 5
      = [([((0 : ℚ), (0 : ℚ))], [-1])] := by
  simp only [perform_clustering]
  rw [if_neg (by simp), if_pos (show pyLower "HDBSCAN" = "hdbscan" from by decide),
    if_pos (by decide)]

theorem cvl_single_one :
    clusterVirtualLocations [([((0 : ℚ), (0 : ℚ))], [(1 : ℚ)])] = [(((0 : ℚ), (0 : ℚ)), 1)] := by
  simp only [clusterVirtualLocations, List.filterMap_cons, List.filterMap_nil]
  rw [if_neg (by simp), centroid_origin 1 (by norm_num)]
  simp

theorem cvl_single_negone :
    clusterVirtualLocations [([((0 : ℚ), (0 : ℚ))], [(-1 : ℚ)])]
      = [(((0 : ℚ), (0 : ℚ)), -1)] := by
  simp only [clusterVirtualLocations, List.filterMap_cons, List.filterMap_nil]
  rw [if_neg (by simp), centroid_origin (-1) (by norm_num)]
  simp

theorem fopwc_run_ten_one :
    findOptimalPointWithClustering apiTen labels0 labels0 [((0 : ℚ), (0 : ℚ))] (some [1])
        "HDBSCAN" 5 100 "total_cost"
      = .ok ⟨(0, 0), 10, 10, [⟨0, (0, 0), some 10, 1⟩], 4⟩ := by
  simp only [findOptimalPointWithClustering, defaultWeights]
  rw [if_neg (by simp), if_neg (by norm_num), perform_clustering_single,
    if_neg (by simp), cvl_single_one]
  simp only [List.map_cons, List.map_nil]
  rw [if_neg (by simp), fop_inner_ten_one (some (Sum.inr 100))]
  simp only [sp_ten, pure_ten, total_ten_one]
  rw [if_neg (by decide)]

theorem fopwc_run_ten_negone :
    findOptimalPointWithClustering apiTen labels0 labels0 [((0 : ℚ), (0 : ℚ))] (some [-1])
        "HDBSCAN" 5 100 "total_cost"
      = .ok ⟨(0, 0), 0, 10, [⟨0, (0, 0), some 10, -1⟩], 4⟩ := by
  simp only [findOptimalPointWithClustering, defaultWeights]
  rw [if_neg (by simp), if_neg (by norm_num), perform_clustering_single_negone,
    if_neg (by simp), cvl_single_negone]
  simp only [List.map_cons, List.map_nil]
  rw [if_neg (by simp), fop_inner_ten_negone (some (Sum.inr 100))]
  simp only [sp_ten, pure_ten, total_ten_negone]
  rw [if_neg (by decide)]

theorem fopwc_run_step200 :
    findOptimalPointWithClustering apiTen labels0 labels0 [((0 : ℚ), (0 : ℚ))] (some [1])
        "HDBSCAN" 5 200 "total_cost"
      = .ok ⟨(0, 0), 10, 10, [⟨0, (0, 0), some 10, 1⟩], 4⟩ := by
  simp only [findOptimalPointWithClustering, defaultWeights]
  rw [if_neg (by simp), if_neg (by norm_num), perform_clustering_single,
    if_neg (by simp), cvl_single_one]
  simp only [List.map_cons, List.map_nil]
  rw [if_neg (by simp), fop_inner_ten_one (some (Sum.inr 200))]
  simp only [sp_ten, pure_ten, total_ten_one]
  rw [if_neg (by decide)]

/-- Witness for C3 at a concrete clustered run. -/
theorem clustered_report_witness :
    ([(⟨0, ((0 : ℚ), (0 : ℚ)), some 10, 1⟩ : IndivEntry)]).length
        = [((0 : ℚ), (0 : ℚ))].length
    ∧ (10 : ℕ)
        = (if "total_cost" = "min_max_time" then
            calculate_max_time apiTen ((0 : ℚ), (0 : ℚ)) [((0 : ℚ), (0 : ℚ))]
          else calculate_total_time apiTen ((0 : ℚ), (0 : ℚ)) [((0 : ℚ), (0 : ℚ))]
            (some (defaultWeights ([((0 : ℚ), (0 : ℚ))]).length (some [1])))) :=
  ⟨(clustered_report_uses_original_locations apiTen labels0 labels0 _ _ _ _ _ _ _
      fopwc_run_ten_one).1,
   (clustered_report_uses_original_locations apiTen labels0 labels0 _ _ _ _ _ _ _
      fopwc_run_ten_one).2.2.1⟩

/-! ### Claim C6 -/

/-- **C6 (code-bug evaluation).** With `searchStepMeters = 200`, a direct
`find_optimal_point` call probes from radius `200 * 0.000009` and needs 5
halvings to converge, but the clustered entry point — whose positional call
at line 733 drops `search_step` into the `clustering_method` slot — runs the
inner search at the DEFAULT step 100 and converges after only 4 halvings:
the claimed radius initialisation does not hold for the clustered entry. -/
theorem clustered_entry_ignores_search_step :
    (findOptimalPointWithClustering apiTen labels0 labels0 [((0 : ℚ), (0 : ℚ))] (some [1])
        "HDBSCAN" 5 200 "total_cost").map FOPResult.iteration_count = .ok 4
    ∧ (findOptimalPoint apiTen labels0 labels0 [((0 : ℚ), (0 : ℚ))] (some [1]) none 5 10 200
        "total_cost").map (Option.map FOPResult.iteration_count) = .ok (some 5) := by
  constructor
  · rw [fopwc_run_step200]
    rfl
  · rw [fop_direct_step200]
    rfl

/-! ### Claim C7 -/

/-- **C7 (amended).** The clustered entry point fails fast — independently of
the routing oracle, hence before any oracle call — with a `ValueError` on an
empty location list and on mismatched location/weight lengths; a direct
`find_optimal_point` call with an empty list returns `None` rather than
raising; non-positive weights and non-positive search steps are NOT rejected
(see the counterexample). -/
theorem input_validation_behavior :
    (∀ (api : MapAPI) (hdbL kmL : ℕ → List Point → List ℤ) (weights : Option (List ℚ))
        (method : String) (param sstep : ℤ) (tag : String),
      findOptimalPointWithClustering api hdbL kmL [] weights method param sstep tag
        = .error "ValueError: coordinate list must not be empty")
    ∧ (∀ (api : MapAPI) (hdbL kmL : ℕ → List Point → List ℤ) (coords : List Point)
        (wl : List ℚ) (method : String) (param sstep : ℤ) (tag : String),
        coords ≠ [] → coords.length ≠ wl.length →
        findOptimalPointWithClustering api hdbL kmL coords (some wl) method param sstep tag
          = .error "ValueError: coordinate and weight lists must have equal length")
    ∧ (∀ (api : MapAPI) (hdbL kmL : ℕ → List Point → List ℤ) (weights : Option (List ℚ))
        (cm : ClusteringArg) (mcs Mcs : ℕ) (step : ℚ) (tag : String),
        findOptimalPoint api hdbL kmL [] weights cm mcs Mcs step tag = .ok none) := by
  refine ⟨?_, ?_, ?_⟩
  · intro api hdbL kmL weights method param sstep tag
    simp [findOptimalPointWithClustering]
  · intro api hdbL kmL coords wl method param sstep tag hne hlen
    simp only [findOptimalPointWithClustering, defaultWeights]
    rw [if_neg hne, if_pos hlen]
  · intro api hdbL kmL weights cm mcs Mcs step tag
    simp [findOptimalPoint]

/-- Witness for C7's amended statement at concrete inputs. -/
theorem input_validation_witness :
    findOptimalPointWithClustering apiTen labels0 labels0 [] (some [1]) "HDBSCAN" 5 100
        "total_cost" = .error "ValueError: coordinate list must not be empty"
    ∧ findOptimalPointWithClustering apiTen labels0 labels0 [((0 : ℚ), (0 : ℚ))]
        (some [1, 2]) "HDBSCAN" 5 100 "total_cost"
      = .error "ValueError: coordinate and weight lists must have equal length"
    ∧ findOptimalPoint apiTen labels0 labels0 [] (some [1]) none 5 10 100 "total_cost"
      = .ok none :=
  ⟨input_validation_behavior.1 apiTen labels0 labels0 (some [1]) "HDBSCAN" 5 100 "total_cost",
   input_validation_behavior.2.1 apiTen labels0 labels0 [((0 : ℚ), (0 : ℚ))] [1, 2]
     "HDBSCAN" 5 100 "total_cost" (by simp) (by norm_num),
   input_validation_behavior.2.2 apiTen labels0 labels0 (some [1]) none 5 10 100 "total_cost"⟩

/-- **C7 counterexample.** A zero-or-negative weight and a non-positive
search step are accepted without any error: the clustered entry point with
weight `-1` and the direct search with step `-5` both return ordinary
results after consulting the oracle, where the claim demands a fail-fast
error before any oracle call. -/
theorem nonpositive_inputs_not_rejected :
    findOptimalPointWithClustering apiTen labels0 labels0 [((0 : ℚ), (0 : ℚ))] (some [-1])
        "HDBSCAN" 5 100 "total_cost"
      = .ok ⟨(0, 0), 0, 10, [⟨0, (0, 0), some 10, -1⟩], 4⟩
    ∧ findOptimalPoint apiTen labels0 labels0 [((0 : ℚ), (0 : ℚ))] (some [1]) none 5 10 (-5)
        "total_cost"
      = .ok (some ⟨(0, 0), 10, 10, [⟨0, (0, 0), some 10, 1⟩], 0⟩) :=
  ⟨fopwc_run_ten_negone, fop_direct_negstep⟩

/-! ### Claim C8: the clustering no-op boundary -/

theorem zip_get?_eq {α β : Type} :
    ∀ (l1 : List α) (l2 : List β) (j : ℕ),
      (l1.zip l2).get? j = (l1.get? j).bind (fun a => (l2.get? j).map (fun b => (a, b))) := by
  intro l1
  induction l1 with
  | nil => intro l2 j; simp
  | cons a l1 ih =>
      intro l2 j
      cases l2 with
      | nil => simp
      | cons b l2 =>
          cases j with
          | zero => simp
          | succ j => simpa using ih l2 j

theorem filterMap_singleton_length {α β : Type} (f : α → Option β) (a : α) :
    (List.filterMap f [a]).length ≤ 1 := by
  simp only [List.filterMap_cons, List.filterMap_nil]
  cases f a <;> simp

/-- **C8 (amended).** Below the size threshold, `apply_hdbscan` and
`apply_capacity_kmeans` are true no-ops — exactly `n` virtual locations, the
`j`-th identical in coordinate and weight to the `j`-th input — but the
`_perform_clustering` path used by `find_optimal_point_with_clustering`
returns ONE cluster containing all `n` points in that regime, which
downstream becomes a single virtual location, not `n` (see the
counterexample). -/
theorem clustering_noop_boundary (labelF : List Point → List ℤ)
    (hdbF kmF : ℕ → List Point → List ℤ) (coords : List Point) (ws : List ℚ)
    (mcs Mcs : ℕ) (param : ℤ) (hlen : ws.length = coords.length) :
    (coords.length < mcs →
      (apply_hdbscan labelF coords ws mcs).length = coords.length
      ∧ ∀ j, (apply_hdbscan labelF coords ws mcs).get? j
          = (coords.get? j).bind (fun c => (ws.get? j).map (fun w => (c, w))))
    ∧ (coords.length ≤ Mcs →
      (apply_capacity_kmeans kmF coords ws Mcs).length = coords.length
      ∧ ∀ j, (apply_capacity_kmeans kmF coords ws Mcs).get? j
          = (coords.get? j).bind (fun c => (ws.get? j).map (fun w => (c, w))))
    ∧ (coords ≠ [] → 0 < param → coords.length < param.toNat →
        perform_clustering hdbF kmF coords ws "hdbscan" param = [(coords, ws)])
    ∧ (coords ≠ [] → 0 < param → coords.length ≤ param.toNat →
        perform_clustering hdbF kmF coords ws "kmeans" param = [(coords, ws)]) := by
  refine ⟨?_, ?_, ?_, ?_⟩
  · intro hlt
    rw [apply_hdbscan, if_pos hlt]
    exact ⟨by simp [List.length_zip, hlen], fun j => zip_get?_eq coords ws j⟩
  · intro hle
    rw [apply_capacity_kmeans, if_pos hle]
    exact ⟨by simp [List.length_zip, hlen], fun j => zip_get?_eq coords ws j⟩
  · intro hne hp hlt
    simp only [perform_clustering]
    rw [if_neg hne, if_pos (show pyLower "hdbscan" = "hdbscan" from by decide),
      if_pos (by rw [if_pos hp]; exact hlt)]
  · intro hne hp hle
    simp only [perform_clustering]
    rw [if_neg hne, if_neg (by decide), if_pos (show pyLower "kmeans" = "kmeans" from by decide),
      if_pos (by rw [if_pos hp]; exact hle)]

/-- Witness for C8's amended statement at concrete inputs. -/
theorem clustering_noop_witness :
    (apply_hdbscan (labels0 5) [((0 : ℚ), (0 : ℚ)), ((1 : ℚ), (1 : ℚ))] [1, 2] 5).length
        = ([((0 : ℚ), (0 : ℚ)), ((1 : ℚ), (1 : ℚ))] : List Point).length
    ∧ perform_clustering labels0 labels0 [((0 : ℚ), (0 : ℚ))] [1] "kmeans" 10
        = [([((0 : ℚ), (0 : ℚ))], [1])] :=
  ⟨((clustering_noop_boundary (labels0 5) labels0 labels0
      [((0 : ℚ), (0 : ℚ)), ((1 : ℚ), (1 : ℚ))] [1, 2] 5 10 10 (by norm_num)).1
      (by norm_num)).1,
   (clustering_noop_boundary (labels0 5) labels0 labels0 [((0 : ℚ), (0 : ℚ))] [1] 5 10 10
      (by norm_num)).2.2.2 (by simp) (by norm_num) (by decide)⟩

/-- **C8 counterexample.** With 2 points and minimum cluster size 5, the
`_perform_clustering` path returns a single cluster holding both points, so
the clustered entry point builds 1 virtual location, not 2 singletons. -/
theorem perform_clustering_not_singletons :
    perform_clustering labels0 labels0 [((0 : ℚ), (0 : ℚ)), ((1 : ℚ), (1 : ℚ))] [1, 1]
        "hdbscan" 5
      = [([((0 : ℚ), (0 : ℚ)), ((1 : ℚ), (1 : ℚ))], [1, 1])]
    ∧ (clusterVirtualLocations (perform_clustering labels0 labels0
        [((0 : ℚ), (0 : ℚ)), ((1 : ℚ), (1 : ℚ))] [1, 1] "hdbscan" 5)).length ≠ 2 := by
  have h : perform_clustering labels0 labels0 [((0 : ℚ), (0 : ℚ)), ((1 : ℚ), (1 : ℚ))] [1, 1]
      "hdbscan" 5 = [([((0 : ℚ), (0 : ℚ)), ((1 : ℚ), (1 : ℚ))], [1, 1])] := by
    simp only [perform_clustering]
    rw [if_neg (by simp), if_pos (show pyLower "hdbscan" = "hdbscan" from by decide),
      if_pos (by decide)]
  refine ⟨h, ?_⟩
  rw [h]
  have hle := filterMap_singleton_length
    (fun cl : List Point × List ℚ => if cl.1 = [] then none
      else (calculate_centroid cl.1 (some cl.2)).map (fun c => (c, cl.2.sum)))
    ([((0 : ℚ), (0 : ℚ)), ((1 : ℚ), (1 : ℚ))], [1, 1])
  simp only [clusterVirtualLocations]
  omega

/-! ### Claim C10: objective dispatch on the exact tag string -/

theorem runSearch_tag_eq (api : MapAPI) (coords : List Point)
    (weights : Option (List ℚ)) (tag : String) (h : tag ≠ "min_max_time") :
    ∀ (start : Point) (step : ℚ),
      runSearch api coords weights tag start step
        = runSearch api coords weights "total_cost" start step := by
  have he : evalMetric api tag coords weights = evalMetric api "total_cost" coords weights := by
    funext q
    rw [evalMetric, evalMetric, if_neg h, if_neg (by decide)]
  intro start step
  simp only [runSearch, he]

theorem fop_tag_eq (api : MapAPI) (hdbL kmL : ℕ → List Point → List ℤ)
    (coords : List Point) (weights : Option (List ℚ)) (cm : ClusteringArg)
    (mcs Mcs : ℕ) (step : ℚ) (tag : String) (h : tag ≠ "min_max_time") :
    findOptimalPoint api hdbL kmL coords weights cm mcs Mcs step tag
      = findOptimalPoint api hdbL kmL coords weights cm mcs Mcs step "total_cost" := by
  simp only [findOptimalPoint, runSearch_tag_eq api coords weights tag h]

theorem fopwc_tag_eq (api : MapAPI) (hdbL kmL : ℕ → List Point → List ℤ)
    (coords : List Point) (weights : Option (List ℚ)) (method : String)
    (param sstep : ℤ) (tag : String) (h : tag ≠ "min_max_time") :
    findOptimalPointWithClustering api hdbL kmL coords weights method param sstep tag
      = findOptimalPointWithClustering api hdbL kmL coords weights method param sstep
        "total_cost" := by
  have hif : ∀ a b : ℕ, (if tag = "min_max_time" then a else b)
      = (if "total_cost" = "min_max_time" then a else b) := by
    intro a b
    rw [if_neg h, if_neg (by decide)]
  simp only [findOptimalPointWithClustering, hif]

/-- **C10.** The min-max objective is selected exactly when the tag is the
string `"min_max_time"`: with that tag the dispatch picks
`calculate_max_time`; with ANY other tag — arbitrary, misspelled or
differently cased — the dispatch picks the weighted sum, and both
`find_optimal_point` and `find_optimal_point_with_clustering` behave
identically to a `"total_cost"` call end to end (in particular no unknown
tag is ever rejected with an error). -/
theorem algorithm_dispatch_exact_string (api : MapAPI)
    (hdbL kmL : ℕ → List Point → List ℤ) (coords : List Point)
    (weights : Option (List ℚ)) (p : Point) (cm : ClusteringArg) (mcs Mcs : ℕ)
    (step : ℚ) (method : String) (param sstep : ℤ) (tag : String) :
    evalMetric api "min_max_time" coords weights p = calculate_max_time api p coords
    ∧ (tag ≠ "min_max_time" →
        evalMetric api tag coords weights p = calculate_total_time api p coords weights
        ∧ findOptimalPoint api hdbL kmL coords weights cm mcs Mcs step tag
            = findOptimalPoint api hdbL kmL coords weights cm mcs Mcs step "total_cost"
        ∧ findOptimalPointWithClustering api hdbL kmL coords weights method param sstep tag
            = findOptimalPointWithClustering api hdbL kmL coords weights method param sstep
              "total_cost") := by
  refine ⟨by rw [evalMetric, if_pos rfl], fun h => ⟨?_, ?_, ?_⟩⟩
  · rw [evalMetric, if_neg h]
  · exact fop_tag_eq api hdbL kmL coords weights cm mcs Mcs step tag h
  · exact fopwc_tag_eq api hdbL kmL coords weights method param sstep tag h

/-- Witness for C10 at a differently-cased tag. -/
theorem algorithm_dispatch_witness :
    evalMetric apiTen "MIN_MAX_TIME" [((0 : ℚ), (0 : ℚ))] (some [1]) ((0 : ℚ), (0 : ℚ))
      = calculate_total_time apiTen ((0 : ℚ), (0 : ℚ)) [((0 : ℚ), (0 : ℚ))] (some [1])
    ∧ findOptimalPointWithClustering apiTen labels0 labels0 [((0 : ℚ), (0 : ℚ))] (some [1])
        "HDBSCAN" 5 100 "MIN_MAX_TIME"
      = findOptimalPointWithClustering apiTen labels0 labels0 [((0 : ℚ), (0 : ℚ))] (some [1])
        "HDBSCAN" 5 100 "total_cost" :=
  ⟨((algorithm_dispatch_exact_string apiTen labels0 labels0 [((0 : ℚ), (0 : ℚ))] (some [1])
      ((0 : ℚ), (0 : ℚ)) none 5 10 100 "HDBSCAN" 5 100 "MIN_MAX_TIME").2 (by decide)).1,
   ((algorithm_dispatch_exact_string apiTen labels0 labels0 [((0 : ℚ), (0 : ℚ))] (some [1])
      ((0 : ℚ), (0 : ℚ)) none 5 10 100 "HDBSCAN" 5 100 "MIN_MAX_TIME").2 (by decide)).2.2⟩

end OptimalPoint
